import Mathlib

/-!
Verification of the media upload pipeline (video + thumbnail handlers,
asset key generation, reference encoding/resolution) of the
learn-file-storage-s3-golang repository.

Strings from the Go source are modelled as lists of characters.  Each
handler is embedded as a pure function from an environment — the recorded
outcomes of every external effect (database reads/writes, temp-file
creation, ffmpeg/ffprobe invocations, S3 puts and presigns, the randomness
source) — to the HTTP response together with the trace of effect events the
run performs, in source order.  Deferred cleanup (`defer os.Remove`) is
modelled by appending the removal event on every exit path that runs after
the corresponding `defer` statement, including panic-equivalent exits.
-/

abbrev Str := List Char

/-- The `database.Video` record: owning user and the two reference fields. -/
structure Video where
  id : Nat
  userID : Nat
  videoURL : Option Str
  thumbnailURL : Option Str
  deriving DecidableEq, Repr

/-- `db.GetVideo` failure modes: `sql.ErrNoRows` versus any other error. -/
inductive DBErr
  | noRows
  | other
  deriving DecidableEq, Repr

/-- Externally observable effects of one handler run, in program order. -/
inductive Event
  | getVideo
  | createTemp (name : Str)
  | remux (input output : Str)
  | remuxFail (input : Str)
  | createFile (name : Str)
  | probe (path : Str)
  | classify
  | putObject (bucket key : Str)
  | putFail (bucket key : Str)
  | deleteObject (bucket key : Str)
  | updateVideo (v : Video) (ok : Bool)
  | presign (bucket key : Str) (ttlSeconds : Nat)
  | removeFile (name : Str)
  deriving DecidableEq, Repr

/-- The handler's observable reply: an HTTP error, a JSON success body, or a
runtime panic (e.g. an out-of-range slice index or nil dereference). -/
inductive Response
  | error (status : Nat) (msg : String)
  | ok (v : Video)
  | panicked (msg : String)
  deriving DecidableEq, Repr

def Event.isPutObject : Event → Bool
  | .putObject _ _ => true
  | _ => false

def Event.isPutAttempt : Event → Bool
  | .putObject _ _ => true
  | .putFail _ _ => true
  | _ => false

def Event.isUpdateVideo : Event → Bool
  | .updateVideo _ _ => true
  | _ => false

def Event.isDelete : Event → Bool
  | .deleteObject _ _ => true
  | _ => false

def Event.isRemuxInvoked : Event → Bool
  | .remux _ _ => true
  | .remuxFail _ => true
  | _ => false

def Event.isRemuxSuccess : Event → Bool
  | .remux _ _ => true
  | _ => false

def Event.isProbe : Event → Bool
  | .probe _ => true
  | _ => false

def Event.isClassify : Event → Bool
  | .classify => true
  | _ => false

def Event.isCreateTemp : Event → Bool
  | .createTemp _ => true
  | _ => false

def Event.isFileCreation : Event → Bool
  | .createTemp _ => true
  | .createFile _ => true
  | _ => false

/-- `precedes p q tr = true` iff before the first `q`-event of `tr` there is
some `p`-event (vacuously true when no `q`-event occurs). -/
def precedes (p q : Event → Bool) : List Event → Bool
  | [] => true
  | e :: es => if q e then false else if p e then true else precedes p q es

def applyEventStorage (s : List (Str × Str)) (e : Event) : List (Str × Str) :=
  match e with
  | .putObject b k => (b, k) :: s
  | .deleteObject b k => s.filter (fun p => !decide (p = (b, k)))
  | _ => s

/-- Objects present in the store after a run (puts minus deletes). -/
def storageAfter (evts : List Event) : List (Str × Str) :=
  evts.foldl applyEventStorage []

def applyEventRecord (v : Video) (e : Event) : Video :=
  match e with
  | .updateVideo v2 ok => if ok then v2 else v
  | _ => v

/-- The persisted record after a run: only acknowledged updates take effect. -/
def recordAfter (orig : Video) (evts : List Event) : Video :=
  evts.foldl applyEventRecord orig

def applyEventFiles (fs : List Str) (e : Event) : List Str :=
  match e with
  | .createTemp n => n :: fs
  | .createFile n => n :: fs
  | .removeFile n => fs.filter (fun m => !decide (m = n))
  | _ => fs

/-- Local files still on disk after a run (creations minus removals). -/
def filesAfter (evts : List Event) : List Str :=
  evts.foldl applyEventFiles []

/-! ### Key generation (`assets.go`) -/

/-- The URL-safe base64 alphabet used by Go's `base64.RawURLEncoding`. -/
def b64urlAlphabet : Str :=
  "ABCDEFGHIJKLMNOPQRSTUVWXYZabcdefghijklmnopqrstuvwxyz0123456789-_".toList

def b64Char (n : Nat) : Char :=
  b64urlAlphabet.getD n 'A'

/-- Go's `base64.RawURLEncoding.EncodeToString`: 6-bit groups, URL-safe
alphabet, no padding. -/
def base64RawUrlEncode : List Nat → Str
  | [] => []
  | [b1] => [b64Char (b1 / 4), b64Char (b1 % 4 * 16)]
  | [b1, b2] => [b64Char (b1 / 4), b64Char (b1 % 4 * 16 + b2 / 16), b64Char (b2 % 16 * 4)]
  | b1 :: b2 :: b3 :: rest =>
    b64Char (b1 / 4) :: b64Char (b1 % 4 * 16 + b2 / 16) ::
      b64Char (b2 % 16 * 4 + b3 / 64) :: b64Char (b3 % 64) ::
      base64RawUrlEncode rest

/-- Go's `strings.Split(s, sep)` for a single-character separator. -/
def splitOnChar (c : Char) : Str → List Str
  | [] => [[]]
  | x :: xs =>
    if x = c then [] :: splitOnChar c xs
    else
      match splitOnChar c xs with
      | [] => [[x]]
      | y :: ys => (x :: y) :: ys

/-- `mediaTypeToExtension` from `assets.go`: split on `/`; exactly two parts
yields `"." + subtype`, anything else `".bin"`. -/
def mediaTypeToExtension (mediaType : Str) : Str :=
  let parts := splitOnChar '/' mediaType
  if parts.length = 2 then '.' :: parts.getD 1 []
  else ".bin".toList

/-- Outcome of `getAssetPath`: a path, or the `panic` taken when the
randomness source fails. -/
inductive KeyGenResult
  | panic
  | ok (path : Str)
  deriving DecidableEq, Repr

/-- `getAssetPath` from `assets.go`.  `randBytes` is the outcome of
`rand.Read` into the 32-byte buffer: `none` models a randomness failure,
which the source answers with `panic`. -/
def getAssetPath (randBytes : Option (List Nat)) (mediaType : Str) : KeyGenResult :=
  match randBytes with
  | none => .panic
  | some key => .ok (base64RawUrlEncode key ++ mediaTypeToExtension mediaType)

/-! ### Probe and classification (`handler_upload_video.go`) -/

/-- `checkAspectRatioType`, simplified to exact rational arithmetic: the
ratio `width/height` is compared with the targets `16/9` and `9/16` using
absolute difference at most `tolerance` (inclusive `≤`).  The Go source
computes with binary64 floats; this exact-arithmetic version is the
classifier the handler model uses (the choice of class string does not
affect the control-flow, cleanup, ordering or commit properties).  The
bit-accurate binary64 version is `checkAspectRatioType64` below; the two
differ only at inputs whose exact distance to a target sits at the rounding
knife edge of the tolerance. -/
def checkAspectRatioType (width height : Int) (tolerance : ℚ) : String :=
  if |(width : ℚ) / (height : ℚ) - 16 / 9| ≤ tolerance then "16:9"
  else if |(width : ℚ) / (height : ℚ) - 9 / 16| ≤ tolerance then "9:16"
  else "other"

/-! ### Bit-accurate binary64 model of the classifier

IEEE-754 binary64 values arising in `checkAspectRatioType` are finite and
normal, so each is exactly a dyadic rational `m * 2^e` with `|m| < 2^53`.
`roundF n b k` rounds the rational `(n / b) * 2^k` to the nearest such
value (round-to-nearest, ties-to-even), which is the rounding Go performs
for int-to-float conversion, float division, float subtraction, and the
decimal literal `0.01`.  Overflow, underflow to subnormals, NaN and
infinities are outside the range these computations reach for positive
integer dimensions and are not modelled. -/

/-- A finite binary64 value, denoted `m * 2^e`. -/
structure F64 where
  m : Int
  e : Int
  deriving DecidableEq, Repr

def bitLenAux : Nat → Nat → Nat
  | 0, _ => 0
  | fuel + 1, n => if n = 0 then 0 else bitLenAux fuel (n / 2) + 1

/-- Number of binary digits of `n` (0 for 0). -/
def bitLen (n : Nat) : Nat := bitLenAux n n

/-- `floorLog2 a b` is the floor of the base-2 logarithm of `a / b` for
positive `a`, `b`. -/
def floorLog2 (a b : Nat) : Int :=
  let la := bitLen a
  let lb := bitLen b
  if b * 2 ^ la ≤ a * 2 ^ lb then (la : Int) - lb else (la : Int) - lb - 1

/-- Round `(a / b) * 2^t` to the nearest integer, ties to even. -/
def roundMantissa (a b : Nat) (t : Int) : Nat :=
  let n := if 0 ≤ t then a * 2 ^ t.toNat else a
  let d := if 0 ≤ t then b else b * 2 ^ (-t).toNat
  let f := n / d
  let r := n % d
  if 2 * r < d then f
  else if d < 2 * r then f + 1
  else if f % 2 = 0 then f else f + 1

def roundPos (a b : Nat) (k : Int) : F64 :=
  if a = 0 then ⟨0, 0⟩
  else
    let l := floorLog2 a b
    let m := roundMantissa a b (52 - l)
    if m = 2 ^ 53 then ⟨2 ^ 52, k + l + 1 - 52⟩ else ⟨(m : Int), k + l - 52⟩

/-- Round the rational `(n / b) * 2^k` to the nearest binary64 value,
ties to even. -/
def roundF (n : Int) (b : Nat) (k : Int) : F64 :=
  if n < 0 then
    let p := roundPos n.natAbs b k
    ⟨-p.m, p.e⟩
  else roundPos n.toNat b k

/-- Go's `float64(z)` conversion. -/
def F64.ofInt (z : Int) : F64 := roundF z 1 0

/-- Correctly rounded binary64 division. -/
def F64.div (x y : F64) : F64 :=
  let n := if y.m < 0 then -x.m else x.m
  roundF n y.m.natAbs (x.e - y.e)

/-- Correctly rounded binary64 subtraction (exact difference, then
rounded). -/
def F64.sub (x y : F64) : F64 :=
  let em := min x.e y.e
  roundF (x.m * 2 ^ (x.e - em).toNat - y.m * 2 ^ (y.e - em).toNat) 1 em

/-- `math.Abs`: exact on binary64. -/
def F64.fabs (x : F64) : F64 := ⟨|x.m|, x.e⟩

/-- Binary64 `<=`: exact comparison of the denoted values. -/
def F64.ble (x y : F64) : Bool :=
  let em := min x.e y.e
  decide (x.m * 2 ^ (x.e - em).toNat ≤ y.m * 2 ^ (y.e - em).toNat)

/-- The binary64 value of the literal `0.01` the handler passes as
tolerance. -/
def tol64 : F64 := roundF 1 100 0

/-- `checkAspectRatioType`, embedded bit-accurately: `16.0/9.0` and
`9.0/16.0` are the correctly rounded binary64 constants (Go folds the
untyped constant division in exact arithmetic and rounds on assignment,
which coincides with rounding the exact quotient), the ratio is a binary64
division of the converted operands, and `math.Abs(ratio - c) <= tolerance`
is a rounded subtraction, an exact absolute value, and an exact
comparison. -/
def checkAspectRatioType64 (width height : Int) (tolerance : F64) : String :=
  let sixteenNineRatio := F64.div (F64.ofInt 16) (F64.ofInt 9)
  let nineSixteenRatio := F64.div (F64.ofInt 9) (F64.ofInt 16)
  let ratio := F64.div (F64.ofInt width) (F64.ofInt height)
  if F64.ble (F64.fabs (F64.sub ratio sixteenNineRatio)) tolerance then "16:9"
  else if F64.ble (F64.fabs (F64.sub ratio nineSixteenRatio)) tolerance then "9:16"
  else "other"

/-- Lines 127–131 of the video handler: rename `"16:9"`/`"9:16"` to
`"landscape"`/`"portrait"`, leave anything else unchanged. -/
def mapAspect (s : String) : String :=
  if s = "16:9" then "landscape"
  else if s = "9:16" then "portrait"
  else s

/-- Outcome of `getVideoAspectRatio`: an error return, a runtime panic, or
the classification string. -/
inductive ProbeOutcome
  | panic
  | err
  | ok (aspect : String)
  deriving DecidableEq, Repr

/-- `getVideoAspectRatio`: `probeResult` is the combined outcome of running
`ffprobe` and unmarshalling its JSON (`.error` covers a non-zero exit or
unparsable output; `.ok` carries the decoded `streams` array as
width/height pairs).  The source indexes `metadata.Streams[0]` without a
length check, so an empty array is a runtime panic. -/
def getVideoAspectRatio (probeResult : Except Unit (List (Int × Int))) : ProbeOutcome :=
  match probeResult with
  | .error _ => .err
  | .ok metadata =>
    match metadata with
    | [] => .panic
    | (width, height) :: _ => .ok (checkAspectRatioType width height (1 / 100))

/-! ### Reference encoding and resolution -/

/-- Line 145 of the video handler: `fmt.Sprintf("%s,%s", bucket, key)`. -/
def encodeRef (bucket key : Str) : Str :=
  bucket ++ ',' :: key

/-- Outcome of `dbVideoToSignedVideo`. -/
inductive SignResult
  | panicked
  | err
  | ok (v : Video)
  deriving DecidableEq, Repr

/-- `generatePresignedURL`: asks the store for a presigned GET URL for
`(bucket, key)` valid for `expireSeconds`; `presignResult` is the store's
answer. -/
def generatePresignedURL (presignResult : Except Unit Str) (bucket key : Str)
    (expireSeconds : Nat) : Except Unit Str × List Event :=
  (match presignResult with
   | .error _ => .error ()
   | .ok u => .ok u,
   [.presign bucket key expireSeconds])

/-- `dbVideoToSignedVideo`: dereferences `*video.VideoURL` (nil is a
panic), splits on `,`; a part count other than 2 returns the record
unchanged; otherwise presigns `(bucket, key)` for 5 minutes and replaces
the URL field. -/
def dbVideoToSignedVideo (presignResult : Except Unit Str) (video : Video) :
    SignResult × List Event :=
  match video.videoURL with
  | none => (.panicked, [])
  | some u =>
    let parts := splitOnChar ',' u
    if parts.length = 2 then
      let bucket := parts.getD 0 []
      let key := parts.getD 1 []
      let signed := generatePresignedURL presignResult bucket key (5 * 60)
      (match signed.1 with
       | .error _ => .err
       | .ok url => .ok { video with videoURL := some url },
       signed.2)
    else (.ok video, [])

/-! ### The video upload handler -/

/-- Environment of one `handlerUploadVideo` run: the outcome of each
external effect in the order the source performs them. -/
structure VideoEnv where
  videoIDValid : Bool
  tokenOk : Bool
  jwtValid : Bool
  userID : Nat
  getVideoResult : Except DBErr Video
  formFileOk : Bool
  mediaTypeResult : Except Unit Str
  createTempOk : Bool
  tempName : Str
  copyOk : Bool
  seekOk : Bool
  remuxOk : Bool
  openProcessedOk : Bool
  probeResult : Except Unit (List (Int × Int))
  randBytes : Option (List Nat)
  bucket : Str
  putOk : Bool
  updateOk : Bool
  presignResult : Except Unit Str
  deriving Repr

/-- Lines 91–163 of `handlerUploadVideo`: everything after the staging
temp file exists (its deferred removal is appended by the wrapper). -/
def handlerUploadVideoCore (env : VideoEnv) (videoDb : Video) (mediaType : Str) :
    Response × List Event :=
  if env.copyOk = false then (.error 500 "Couldn't copy data", [])
  else if env.seekOk = false then (.error 500 "Couldn't reset file pointer", [])
  else if env.remuxOk = false then
    (.error 500 "Couldn't process video for fast start", [.remuxFail env.tempName])
  else
    let processedPath := env.tempName ++ ".processing".toList
    let remuxEvts : List Event := [.remux env.tempName processedPath, .createFile processedPath]
    if env.openProcessedOk = false then
      (.error 500 "Couldn't open processed video file", remuxEvts)
    else
      let probeEvts := remuxEvts ++ [.probe processedPath]
      match getVideoAspectRatio env.probeResult with
      | .err => (.error 500 "Couldn't get video aspect ratio", probeEvts)
      | .panic => (.panicked "runtime error: index out of range", probeEvts)
      | .ok aspectRatioRaw =>
        let classEvts := probeEvts ++ [.classify]
        let aspectRatio := mapAspect aspectRatioRaw
        match getAssetPath env.randBytes mediaType with
        | .panic => (.panicked "failed to generate random bytes", classEvts)
        | .ok assetPath =>
          let key := aspectRatio.toList ++ '/' :: assetPath
          if env.putOk = false then
            (.error 500 "Couldn't upload video to S3", classEvts ++ [.putFail env.bucket key])
          else
            let putEvts := classEvts ++ [.putObject env.bucket key]
            let videoURL := encodeRef env.bucket key
            let videoDb2 : Video := { videoDb with videoURL := some videoURL }
            if env.updateOk = false then
              (.error 500 "Couldn't update video", putEvts ++ [.updateVideo videoDb2 false])
            else
              let updEvts := putEvts ++ [.updateVideo videoDb2 true]
              let signed := dbVideoToSignedVideo env.presignResult videoDb2
              ((match signed.1 with
                | .panicked => .panicked "invalid memory address or nil pointer dereference"
                | .err => .error 500 "Couldn't generate presigned video url"
                | .ok v => .ok v),
               updEvts ++ signed.2)

/-- `handlerUploadVideo`: ID parse, bearer token, JWT validation, record
fetch, form file, media type parse, exact `video/mp4` check, then staging;
the staged temp file's deferred removal runs on every later exit path. -/
def handlerUploadVideo (env : VideoEnv) : Response × List Event :=
  if env.videoIDValid = false then (.error 400 "Invalid ID", [])
  else if env.tokenOk = false then (.error 401 "Couldn't find JWT", [])
  else if env.jwtValid = false then (.error 400 "COuldn't validate JWT", [])
  else
    match env.getVideoResult with
    | .error .noRows => (.error 404 "Video not found", [.getVideo])
    | .error .other => (.error 500 "Couldn't get video", [.getVideo])
    | .ok videoDb =>
      if env.formFileOk = false then (.error 400 "Unable to parse form file", [.getVideo])
      else
        match env.mediaTypeResult with
        | .error _ => (.error 400 "Couldn't parse media type", [.getVideo])
        | .ok mediaType =>
          if ¬ (mediaType = "video/mp4".toList) then
            (.error 400 "Only accept video/mp4", [.getVideo])
          else if env.createTempOk = false then
            (.error 500 "Couldn't create temporrary file", [.getVideo])
          else
            let core := handlerUploadVideoCore env videoDb mediaType
            (core.1, .getVideo :: .createTemp env.tempName :: core.2 ++ [.removeFile env.tempName])

/-! ### The thumbnail upload handler -/

/-- Environment of one `handlerUploadThumbnail` run. -/
structure ThumbEnv where
  videoIDValid : Bool
  tokenOk : Bool
  jwtValid : Bool
  userID : Nat
  formFileOk : Bool
  mediaTypeResult : Except Unit Str
  getVideoResult : Except DBErr Video
  randBytes : Option (List Nat)
  assetsRoot : Str
  port : Str
  createOk : Bool
  copyOk : Bool
  updateOk : Bool
  deriving Repr

/-- `handlerUploadThumbnail`: ID parse, token, JWT, form file, media type
parse, exact `image/jpeg`/`image/png` check, record fetch, ownership check,
asset path, file creation, copy, record update. -/
def handlerUploadThumbnail (env : ThumbEnv) : Response × List Event :=
  if env.videoIDValid = false then (.error 400 "Invalid ID", [])
  else if env.tokenOk = false then (.error 401 "Couldn't find JWT", [])
  else if env.jwtValid = false then (.error 401 "Couldn't validate JWT", [])
  else if env.formFileOk = false then (.error 400 "Unable to parse form file", [])
  else
    match env.mediaTypeResult with
    | .error _ => (.error 400 "Media type can't be parsed", [])
    | .ok mediaType =>
      if ¬ (mediaType = "image/jpeg".toList) ∧ ¬ (mediaType = "image/png".toList) then
        (.error 400 "Only accepts image/png or image/jpeg", [])
      else
        match env.getVideoResult with
        | .error .noRows => (.error 404 "Video not found", [.getVideo])
        | .error .other => (.error 500 "Couldn't get video", [.getVideo])
        | .ok videoDb =>
          if ¬ (videoDb.userID = env.userID) then
            (.error 401 "Unauthorized", [.getVideo])
          else
            match getAssetPath env.randBytes mediaType with
            | .panic => (.panicked "failed to generate random bytes", [.getVideo])
            | .ok fileName =>
              let assetDiskPath := env.assetsRoot ++ '/' :: fileName
              if env.createOk = false then
                (.error 500 "Couldn't create asset file", [.getVideo])
              else if env.copyOk = false then
                (.error 500 "Couldn't copy data", [.getVideo, .createFile assetDiskPath])
              else
                let thumbnailURL :=
                  "http://localhost:".toList ++ env.port ++ "/assets/".toList ++ fileName
                let videoDb2 : Video := { videoDb with thumbnailURL := some thumbnailURL }
                if env.updateOk = false then
                  (.error 500 "Couldn't update video",
                   [.getVideo, .createFile assetDiskPath, .updateVideo videoDb2 false])
                else
                  (.ok videoDb2,
                   [.getVideo, .createFile assetDiskPath, .updateVideo videoDb2 true])

/-- A video-handler environment in which every external effect succeeds. -/
def okVideoEnv (uid : Nat) (vd : Video) (tn bucket : Str) (bytes : List Nat)
    (streams : List (Int × Int)) (pres : Except Unit Str) : VideoEnv :=
  { videoIDValid := true
    tokenOk := true
    jwtValid := true
    userID := uid
    getVideoResult := .ok vd
    formFileOk := true
    mediaTypeResult := .ok "video/mp4".toList
    createTempOk := true
    tempName := tn
    copyOk := true
    seekOk := true
    remuxOk := true
    openProcessedOk := true
    probeResult := .ok streams
    randBytes := some bytes
    bucket := bucket
    putOk := true
    updateOk := true
    presignResult := pres }

/-! ### Helper lemmas -/

lemma precedes_append (p q : Event → Bool) (l1 l2 : List Event)
    (h1 : precedes p q l1 = true) (h2 : precedes p q l2 = true) :
    precedes p q (l1 ++ l2) = true := by
  induction l1 with
  | nil => simpa using h2
  | cons e es ih =>
    simp only [precedes, List.cons_append] at h1 ⊢
    by_cases hq : q e
    · simp [hq] at h1
    · by_cases hp : p e
      · simp [hq, hp]
      · simp [hq, hp] at h1 ⊢
        exact ih h1

/-- Every `handlerUploadVideo` trace is empty, the bare record fetch, or the
staging wrapper around a core trace with the deferred temp-file removal. -/
lemma handlerUploadVideo_trace (env : VideoEnv) :
    (handlerUploadVideo env).2 = [] ∨ (handlerUploadVideo env).2 = [.getVideo] ∨
    ∃ vd, (handlerUploadVideo env).2 =
      .getVideo :: .createTemp env.tempName ::
        ((handlerUploadVideoCore env vd "video/mp4".toList).2 ++ [.removeFile env.tempName]) := by
  obtain ⟨vid, tok, jwt, uid, gv, ff, mtr, cto, tn, cp, sk, rm, op, pr, rb, bu, po, uo, ps⟩ := env
  unfold handlerUploadVideo
  cases vid
  · left; rfl
  cases tok
  · left; rfl
  cases jwt
  · left; rfl
  rcases gv with e | vd
  · cases e
    · right; left; rfl
    · right; left; rfl
  cases ff
  · right; left; rfl
  rcases mtr with e | mtv
  · right; left; rfl
  by_cases hmt : mtv = "video/mp4".toList
  · subst hmt
    cases cto
    · right; left; simp
    · right; right
      exact ⟨vd, by simp⟩
  · right; left
    have hmt2 : ¬ mtv = ['v', 'i', 'd', 'e', 'o', '/', 'm', 'p', '4'] := hmt
    simp [hmt2]

lemma core_put_before_update (env : VideoEnv) (vd : Video) (mt : Str) :
    precedes Event.isPutObject Event.isUpdateVideo (handlerUploadVideoCore env vd mt).2 = true := by
  obtain ⟨vid, tok, jwt, uid, gv, ff, mtr, cto, tn, cp, sk, rm, op, pr, rb, bu, po, uo, ps⟩ := env
  unfold handlerUploadVideoCore
  cases cp
  · rfl
  cases sk
  · rfl
  cases rm
  · rfl
  cases op
  · rfl
  rcases pr with e | streams
  · rfl
  rcases streams with _ | ⟨⟨w, h⟩, rest⟩
  · rfl
  rcases rb with _ | bytes
  · rfl
  cases po
  · rfl
  cases uo
  · rfl
  · rfl

lemma core_remux_before_probe (env : VideoEnv) (vd : Video) (mt : Str) :
    precedes Event.isRemuxSuccess Event.isProbe (handlerUploadVideoCore env vd mt).2 = true := by
  obtain ⟨vid, tok, jwt, uid, gv, ff, mtr, cto, tn, cp, sk, rm, op, pr, rb, bu, po, uo, ps⟩ := env
  unfold handlerUploadVideoCore
  cases cp
  · rfl
  cases sk
  · rfl
  cases rm
  · rfl
  cases op
  · rfl
  rcases pr with e | streams
  · rfl
  rcases streams with _ | ⟨⟨w, h⟩, rest⟩
  · rfl
  rcases rb with _ | bytes
  · rfl
  cases po
  · rfl
  cases uo
  · rfl
  · rfl

lemma core_probe_before_classify (env : VideoEnv) (vd : Video) (mt : Str) :
    precedes Event.isProbe Event.isClassify (handlerUploadVideoCore env vd mt).2 = true := by
  obtain ⟨vid, tok, jwt, uid, gv, ff, mtr, cto, tn, cp, sk, rm, op, pr, rb, bu, po, uo, ps⟩ := env
  unfold handlerUploadVideoCore
  cases cp
  · rfl
  cases sk
  · rfl
  cases rm
  · rfl
  cases op
  · rfl
  rcases pr with e | streams
  · rfl
  rcases streams with _ | ⟨⟨w, h⟩, rest⟩
  · rfl
  rcases rb with _ | bytes
  · rfl
  cases po
  · rfl
  cases uo
  · rfl
  · rfl

lemma core_classify_before_put (env : VideoEnv) (vd : Video) (mt : Str) :
    precedes Event.isClassify Event.isPutAttempt (handlerUploadVideoCore env vd mt).2 = true := by
  obtain ⟨vid, tok, jwt, uid, gv, ff, mtr, cto, tn, cp, sk, rm, op, pr, rb, bu, po, uo, ps⟩ := env
  unfold handlerUploadVideoCore
  cases cp
  · rfl
  cases sk
  · rfl
  cases rm
  · rfl
  cases op
  · rfl
  rcases pr with e | streams
  · rfl
  rcases streams with _ | ⟨⟨w, h⟩, rest⟩
  · rfl
  rcases rb with _ | bytes
  · rfl
  cases po
  · rfl
  cases uo
  · rfl
  · rfl

lemma core_remux_before_put (env : VideoEnv) (vd : Video) (mt : Str) :
    precedes Event.isRemuxSuccess Event.isPutAttempt (handlerUploadVideoCore env vd mt).2 = true := by
  obtain ⟨vid, tok, jwt, uid, gv, ff, mtr, cto, tn, cp, sk, rm, op, pr, rb, bu, po, uo, ps⟩ := env
  unfold handlerUploadVideoCore
  cases cp
  · rfl
  cases sk
  · rfl
  cases rm
  · rfl
  cases op
  · rfl
  rcases pr with e | streams
  · rfl
  rcases streams with _ | ⟨⟨w, h⟩, rest⟩
  · rfl
  rcases rb with _ | bytes
  · rfl
  cases po
  · rfl
  cases uo
  · rfl
  · rfl

lemma splitOnChar_ne_nil (c : Char) (l : Str) : splitOnChar c l ≠ [] := by
  cases l with
  | nil => simp [splitOnChar]
  | cons x xs =>
    unfold splitOnChar
    by_cases hx : x = c
    · simp [hx]
    · simp only [hx, if_false]
      split <;> simp

lemma splitOnChar_no_sep (c : Char) (l : Str) (h : c ∉ l) : splitOnChar c l = [l] := by
  induction l with
  | nil => rfl
  | cons x xs ih =>
    simp only [List.mem_cons, not_or] at h
    conv_lhs => rw [splitOnChar.eq_def]
    simp only
    rw [if_neg (fun hx => h.1 hx.symm), ih h.2]

lemma splitOnChar_sep (c : Char) (a b : Str) (ha : c ∉ a) :
    splitOnChar c (a ++ c :: b) = a :: splitOnChar c b := by
  induction a with
  | nil => simp [splitOnChar]
  | cons x xs ih =>
    simp only [List.mem_cons, not_or] at ha
    simp only [List.cons_append]
    conv_lhs => rw [splitOnChar.eq_def]
    simp only
    rw [if_neg (fun hx => ha.1 hx.symm), ih ha.2]

lemma decodeRoundTrip (b k : Str) (hb : ',' ∉ b) (hk : ',' ∉ k) :
    splitOnChar ',' (encodeRef b k) = [b, k] := by
  unfold encodeRef
  rw [splitOnChar_sep ',' b k hb, splitOnChar_no_sep ',' k hk]

/-- On a record whose URL is a well-formed `bucket,key` encoding, the
resolver recovers exactly that bucket and key, presigns them for 5 minutes,
and returns the record with the signed URL. -/
lemma dbSign_success (b k : Str) (v : Video) (url : Str) (hb : ',' ∉ b) (hk : ',' ∉ k) :
    dbVideoToSignedVideo (.ok url) { v with videoURL := some (encodeRef b k) } =
      (.ok { v with videoURL := some url }, [.presign b k (5 * 60)]) := by
  unfold dbVideoToSignedVideo generatePresignedURL
  simp [decodeRoundTrip b k hb hk]

lemma sign_trace (ps : Except Unit Str) (v : Video) :
    (dbVideoToSignedVideo ps v).2 = [] ∨
    ∃ b k, (dbVideoToSignedVideo ps v).2 = [.presign b k (5 * 60)] := by
  unfold dbVideoToSignedVideo generatePresignedURL
  rcases hv : v.videoURL with _ | u
  · left; rfl
  · by_cases hl : (splitOnChar ',' u).length = 2
    · right
      refine ⟨(splitOnChar ',' u).getD 0 [], (splitOnChar ',' u).getD 1 [], ?_⟩
      simp [hl]
    · left; simp [hl]

/-- The full event trace of a successful video run. -/
lemma success_trace (uid : Nat) (vd : Video) (tn bucket : Str) (bytes : List Nat) (w h : Int)
    (rest : List (Int × Int)) (pres : Except Unit Str) :
    (handlerUploadVideo (okVideoEnv uid vd tn bucket bytes ((w, h) :: rest) pres)).2 =
      .getVideo :: .createTemp tn :: .remux tn (tn ++ ".processing".toList) ::
      .createFile (tn ++ ".processing".toList) :: .probe (tn ++ ".processing".toList) ::
      .classify ::
      .putObject bucket ((mapAspect (checkAspectRatioType w h (1 / 100))).toList ++
          '/' :: (base64RawUrlEncode bytes ++ mediaTypeToExtension "video/mp4".toList)) ::
      .updateVideo { vd with videoURL := some (encodeRef bucket
          ((mapAspect (checkAspectRatioType w h (1 / 100))).toList ++
            '/' :: (base64RawUrlEncode bytes ++ mediaTypeToExtension "video/mp4".toList))) } true ::
      ((dbVideoToSignedVideo pres { vd with videoURL := some (encodeRef bucket
          ((mapAspect (checkAspectRatioType w h (1 / 100))).toList ++
            '/' :: (base64RawUrlEncode bytes ++ mediaTypeToExtension "video/mp4".toList))) }).2 ++
        [.removeFile tn]) := rfl

lemma base64RawUrlEncode_length (l : List Nat) :
    (base64RawUrlEncode l).length = (4 * l.length + 2) / 3 := by
  induction l using base64RawUrlEncode.induct with
  | case1 => rfl
  | case2 b1 => simp [base64RawUrlEncode]
  | case3 b1 b2 => simp [base64RawUrlEncode]
  | case4 b1 b2 b3 rest ih =>
    simp only [base64RawUrlEncode, List.length_cons]
    rw [ih]
    omega

lemma b64Char_mem (n : Nat) (h : n < 64) : b64Char n ∈ b64urlAlphabet := by
  unfold b64Char
  rw [List.getD_eq_getElem b64urlAlphabet 'A' (by simpa using h)]
  exact List.getElem_mem _

lemma base64RawUrlEncode_mem (l : List Nat) (hl : ∀ x ∈ l, x < 256) :
    ∀ ch ∈ base64RawUrlEncode l, ch ∈ b64urlAlphabet := by
  induction l using base64RawUrlEncode.induct with
  | case1 => simp [base64RawUrlEncode]
  | case2 b1 =>
    have h1 : b1 < 256 := hl b1 (by simp)
    simp only [base64RawUrlEncode, List.mem_cons, List.not_mem_nil, or_false]
    rintro ch (rfl | rfl) <;> exact b64Char_mem _ (by omega)
  | case3 b1 b2 =>
    have h1 : b1 < 256 := hl b1 (by simp)
    have h2 : b2 < 256 := hl b2 (by simp)
    simp only [base64RawUrlEncode, List.mem_cons, List.not_mem_nil, or_false]
    rintro ch (rfl | rfl | rfl) <;> exact b64Char_mem _ (by omega)
  | case4 b1 b2 b3 rest ih =>
    have h1 : b1 < 256 := hl b1 (by simp)
    have h2 : b2 < 256 := hl b2 (by simp)
    have h3 : b3 < 256 := hl b3 (by simp)
    have hrest : ∀ x ∈ rest, x < 256 := fun x hx => hl x (by simp [hx])
    simp only [base64RawUrlEncode, List.mem_cons]
    rintro ch (rfl | rfl | rfl | rfl | hm)
    · exact b64Char_mem _ (by omega)
    · exact b64Char_mem _ (by omega)
    · exact b64Char_mem _ (by omega)
    · exact b64Char_mem _ (by omega)
    · exact ih hrest ch hm

/-- The orientation prefix is one of three fixed words, none containing the
reference delimiter. -/
lemma comma_not_mem_aspect (w h : Int) :
    ',' ∉ (mapAspect (checkAspectRatioType w h (1 / 100))).toList := by
  unfold checkAspectRatioType mapAspect
  by_cases h1 : |(w : ℚ) / (h : ℚ) - 16 / 9| ≤ 1 / 100
  · rw [if_pos h1]
    decide
  · rw [if_neg h1]
    by_cases h2 : |(w : ℚ) / (h : ℚ) - 9 / 16| ≤ 1 / 100
    · rw [if_pos h2]
      decide
    · rw [if_neg h2]
      decide

/-! ### Concrete environments used by counterexamples and witnesses -/

def sampleVideo : Video := ⟨0, 0, none, none⟩

/-- A fully successful concrete video run: 1920×1080 mp4, all effects succeed. -/
def sampleOkEnv : VideoEnv :=
  okVideoEnv 0 sampleVideo "t".toList "b".toList (List.replicate 32 0) [(1920, 1080)]
    (.ok "u".toList)

/-- The same run but with a declared content type of `video/webm`. -/
def badTypeEnv : VideoEnv :=
  { sampleOkEnv with mediaTypeResult := .ok "video/webm".toList }

/-- A thumbnail request by the record's owner (owner id 0, caller id 0). -/
def thumbOwnerMatchEnv : ThumbEnv :=
  { videoIDValid := true
    tokenOk := true
    jwtValid := true
    userID := 0
    formFileOk := true
    mediaTypeResult := .ok "image/png".toList
    getVideoResult := .ok sampleVideo
    randBytes := some (List.replicate 32 0)
    assetsRoot := "a".toList
    port := "8080".toList
    createOk := true
    copyOk := true
    updateOk := true }

/-- The identical thumbnail request issued by a non-owner (caller id 1). -/
def thumbOwnerMismatchEnv : ThumbEnv :=
  { thumbOwnerMatchEnv with userID := 1 }

/-- The commit-failure family: every effect succeeds except the final
record update. -/
def commitFailEnv (uid : Nat) (vd : Video) (tn bucket : Str) (bytes : List Nat) (w h : Int)
    (rest : List (Int × Int)) (pres : Except Unit Str) : VideoEnv :=
  { okVideoEnv uid vd tn bucket bytes ((w, h) :: rest) pres with updateOk := false }

/-! ### The claims -/

/-- C1: in every video run the record update is attempted only after the
object store has acknowledged the put, and when the update fails after a
successful publish the caller gets a 500, the object stays in the bucket,
the persisted record is unchanged, and no compensating delete is ever
attempted. -/
theorem commit_only_after_publish_and_orphan_on_commit_failure
    (uid : Nat) (vd : Video) (tn bucket : Str) (bytes : List Nat) (w h : Int)
    (rest : List (Int × Int)) (pres : Except Unit Str) :
    (∀ env : VideoEnv,
      precedes Event.isPutObject Event.isUpdateVideo (handlerUploadVideo env).2 = true) ∧
    (handlerUploadVideo (commitFailEnv uid vd tn bucket bytes w h rest pres)).1 =
      .error 500 "Couldn't update video" ∧
    (∃ k, storageAfter
        (handlerUploadVideo (commitFailEnv uid vd tn bucket bytes w h rest pres)).2 =
      [(bucket, k)]) ∧
    recordAfter vd (handlerUploadVideo (commitFailEnv uid vd tn bucket bytes w h rest pres)).2
      = vd ∧
    ((handlerUploadVideo (commitFailEnv uid vd tn bucket bytes w h rest pres)).2).all
      (fun e => !e.isDelete) = true := by
  refine ⟨fun env => ?_, rfl, ⟨_, rfl⟩, rfl, rfl⟩
  rcases handlerUploadVideo_trace env with h | h | ⟨vd2, h⟩ <;> rw [h]
  · rfl
  · rfl
  · exact precedes_append _ _ _ _ (core_put_before_update env vd2 _) rfl

/-- C5 counterexample: in a concrete successful run the remux is invoked
before the probe, refuting the claimed probe-then-classify-then-remux
order. -/
theorem probe_does_not_precede_remux :
    precedes Event.isProbe Event.isRemuxInvoked (handlerUploadVideo sampleOkEnv).2 = false := rfl

/-- C5 amended: the stages of every video run are ordered staging, then
remux, then probe, then classify, then publish; the remux completes before
the publish begins. -/
theorem video_stage_order (env : VideoEnv) :
    precedes Event.isCreateTemp Event.isRemuxInvoked (handlerUploadVideo env).2 = true ∧
    precedes Event.isRemuxSuccess Event.isProbe (handlerUploadVideo env).2 = true ∧
    precedes Event.isProbe Event.isClassify (handlerUploadVideo env).2 = true ∧
    precedes Event.isClassify Event.isPutAttempt (handlerUploadVideo env).2 = true ∧
    precedes Event.isRemuxSuccess Event.isPutAttempt (handlerUploadVideo env).2 = true := by
  refine ⟨?_, ?_, ?_, ?_, ?_⟩ <;>
    rcases handlerUploadVideo_trace env with h | h | ⟨vd2, h⟩ <;> rw [h]
  · rfl
  · rfl
  · rfl
  · rfl
  · rfl
  · exact precedes_append _ _ _ _ (core_remux_before_probe env vd2 _) rfl
  · rfl
  · rfl
  · exact precedes_append _ _ _ _ (core_probe_before_classify env vd2 _) rfl
  · rfl
  · rfl
  · exact precedes_append _ _ _ _ (core_classify_before_put env vd2 _) rfl
  · rfl
  · rfl
  · exact precedes_append _ _ _ _ (core_remux_before_put env vd2 _) rfl

/-- C6 counterexample: after a concrete successful run the remux output
file `t.processing` is still on disk, refuting the claim that every
temporary file of the run is removed. -/
theorem remux_output_not_removed :
    "t".toList ++ ".processing".toList ∈ filesAfter (handlerUploadVideo sampleOkEnv).2 := by
  have hne : ¬ ("t".toList ++ ".processing".toList = "t".toList) := by decide
  unfold sampleOkEnv
  rw [success_trace]
  rcases sign_trace (.ok "u".toList) { sampleVideo with videoURL := some (encodeRef "b".toList
      ((mapAspect (checkAspectRatioType 1920 1080 (1 / 100))).toList ++
        '/' :: (base64RawUrlEncode (List.replicate 32 0) ++
          mediaTypeToExtension "video/mp4".toList))) } with
    hs | ⟨b2, k2, hs⟩ <;> rw [hs] <;>
    simp [filesAfter, applyEventFiles, List.filter, hne]

/-- C6 amended: the staged upload file is removed on every exit path of
every video run, but the file produced by the remux step is never removed
and survives a successful run. -/
theorem staged_file_removed_remux_output_retained
    (uid : Nat) (vd : Video) (tn bucket : Str) (bytes : List Nat) (w h : Int)
    (rest : List (Int × Int)) (pres : Except Unit Str) :
    (∀ env : VideoEnv, env.tempName ∉ filesAfter (handlerUploadVideo env).2) ∧
    tn ++ ".processing".toList ∈ filesAfter
      (handlerUploadVideo (okVideoEnv uid vd tn bucket bytes ((w, h) :: rest) pres)).2 := by
  constructor
  · intro env
    rcases handlerUploadVideo_trace env with h | h | ⟨vd2, h⟩ <;> rw [h]
    · simp [filesAfter]
    · simp [filesAfter, applyEventFiles]
    · simp only [filesAfter, List.foldl_cons, List.foldl_append, List.foldl_nil, applyEventFiles]
      simp [List.mem_filter]
  · have hne : ¬ (tn ++ ".processing".toList = tn) := by
      intro hcontr
      have := congrArg List.length hcontr
      simp at this
    rw [success_trace]
    rcases sign_trace pres { vd with videoURL := some (encodeRef bucket
        ((mapAspect (checkAspectRatioType w h (1 / 100))).toList ++
          '/' :: (base64RawUrlEncode bytes ++ mediaTypeToExtension "video/mp4".toList))) } with
      hs | ⟨b2, k2, hs⟩ <;> rw [hs] <;>
      simp [filesAfter, applyEventFiles, List.filter, hne]

/-- C10: the video handler's behaviour is identical for any two
authenticated callers — the record owner is never compared with the caller
on the video path — while the thumbnail handler distinguishes owner from
non-owner on otherwise identical requests. -/
theorem video_handler_ignores_ownership :
    (∀ (env : VideoEnv) (u1 u2 : Nat),
      handlerUploadVideo { env with userID := u1 } =
        handlerUploadVideo { env with userID := u2 }) ∧
    thumbOwnerMismatchEnv = { thumbOwnerMatchEnv with userID := 1 } ∧
    handlerUploadThumbnail thumbOwnerMatchEnv ≠ handlerUploadThumbnail thumbOwnerMismatchEnv := by
  refine ⟨fun env u1 u2 => rfl, rfl, ?_⟩
  decide

/-- The okVideoEnv family with the parsed media type replaced. -/
def videoEnvWithType (uid : Nat) (vd : Video) (tn bucket : Str) (bytes : List Nat)
    (streams : List (Int × Int)) (pres : Except Unit Str) (mtv : Str) : VideoEnv :=
  { okVideoEnv uid vd tn bucket bytes streams pres with mediaTypeResult := .ok mtv }

/-- The owner-matching thumbnail environment with the parsed media type replaced. -/
def thumbEnvWithType (mtt : Str) : ThumbEnv :=
  { thumbOwnerMatchEnv with mediaTypeResult := .ok mtt }

lemma video_bad_type_no_staging (env : VideoEnv) (mtv : Str)
    (h6 : env.mediaTypeResult = .ok mtv) (h7 : ¬ mtv = "video/mp4".toList) :
    ((handlerUploadVideo env).2).all
      (fun e => !(e.isFileCreation || e.isPutAttempt || e.isUpdateVideo)) = true := by
  obtain ⟨vid, tok, jwt, uid, gv, ff, mtr, cto, tn, cp, sk, rm, op, pr, rb, bu, po, uo, ps⟩ := env
  unfold handlerUploadVideo
  cases vid
  · rfl
  cases tok
  · rfl
  cases jwt
  · rfl
  rcases gv with e | vd
  · cases e <;> rfl
  cases ff
  · rfl
  rcases mtr with e | mtv2
  · rfl
  simp only [Except.ok.injEq] at h6
  subst h6
  have h7x : ¬ mtv2 = ['v', 'i', 'd', 'e', 'o', '/', 'm', 'p', '4'] := h7
  simp [h7x, Event.isFileCreation, Event.isPutAttempt, Event.isUpdateVideo]

lemma thumb_bad_type_no_io (tenv : ThumbEnv) (mtt : Str)
    (h6 : tenv.mediaTypeResult = .ok mtt) (h7 : ¬ mtt = "image/jpeg".toList)
    (h8 : ¬ mtt = "image/png".toList) :
    (handlerUploadThumbnail tenv).2 = [] := by
  obtain ⟨vid, tok, jwt, uid, ff, mtr, gv, rb, root, port, co, cp, uo⟩ := tenv
  unfold handlerUploadThumbnail
  cases vid
  · rfl
  cases tok
  · rfl
  cases jwt
  · rfl
  cases ff
  · rfl
  rcases mtr with e | mtt2
  · rfl
  simp only [Except.ok.injEq] at h6
  subst h6
  have h7x : ¬ mtt2 = ['i', 'm', 'a', 'g', 'e', '/', 'j', 'p', 'e', 'g'] := h7
  have h8x : ¬ mtt2 = ['i', 'm', 'a', 'g', 'e', '/', 'p', 'n', 'g'] := h8
  simp [h7x, h8x]

/-- C4 counterexample: with a disallowed content type `video/webm`, the
video handler still fetches the record from persistence before failing the
content-type check, refuting "before the record is fetched". -/
theorem record_fetched_before_type_check :
    (handlerUploadVideo badTypeEnv).1 = .error 400 "Only accept video/mp4" ∧
    Event.getVideo ∈ (handlerUploadVideo badTypeEnv).2 := ⟨rfl, by decide⟩

/-- C4 amended: a disallowed content type fails with a 400 input error
before any staging file, object put, or record update on both paths; on the
thumbnail path this happens before any effect at all (empty trace), while
on the video path the record fetch has already occurred (trace is exactly
the fetch). -/
theorem invalid_media_type_input_error
    (uid : Nat) (vd : Video) (tn bucket : Str) (bytes : List Nat)
    (streams : List (Int × Int)) (pres : Except Unit Str) (mtv mtt : Str)
    (h7 : ¬ mtv = "video/mp4".toList)
    (t6 : ¬ mtt = "image/jpeg".toList) (t7 : ¬ mtt = "image/png".toList) :
    (handlerUploadVideo (videoEnvWithType uid vd tn bucket bytes streams pres mtv)).1 =
      .error 400 "Only accept video/mp4" ∧
    (handlerUploadVideo (videoEnvWithType uid vd tn bucket bytes streams pres mtv)).2 =
      [.getVideo] ∧
    (handlerUploadThumbnail (thumbEnvWithType mtt)).1 =
      .error 400 "Only accepts image/png or image/jpeg" ∧
    (handlerUploadThumbnail (thumbEnvWithType mtt)).2 = [] ∧
    (∀ (env : VideoEnv) (mtv2 : Str), env.mediaTypeResult = .ok mtv2 →
      ¬ mtv2 = "video/mp4".toList →
      ((handlerUploadVideo env).2).all
        (fun e => !(e.isFileCreation || e.isPutAttempt || e.isUpdateVideo)) = true) ∧
    (∀ (tenv : ThumbEnv) (mtt2 : Str), tenv.mediaTypeResult = .ok mtt2 →
      ¬ mtt2 = "image/jpeg".toList → ¬ mtt2 = "image/png".toList →
      (handlerUploadThumbnail tenv).2 = []) := by
  have h7x : ¬ mtv = ['v', 'i', 'd', 'e', 'o', '/', 'm', 'p', '4'] := h7
  have t6x : ¬ mtt = ['i', 'm', 'a', 'g', 'e', '/', 'j', 'p', 'e', 'g'] := t6
  have t7x : ¬ mtt = ['i', 'm', 'a', 'g', 'e', '/', 'p', 'n', 'g'] := t7
  refine ⟨?_, ?_, ?_, ?_, fun env mtv2 => video_bad_type_no_staging env mtv2,
    fun tenv mtt2 => thumb_bad_type_no_io tenv mtt2⟩ <;>
    simp [handlerUploadVideo, handlerUploadThumbnail, videoEnvWithType, thumbEnvWithType,
      okVideoEnv, thumbOwnerMatchEnv, h7x, t6x, t7x]

/-- C4 witness at `video/webm` and `text/plain`. -/
theorem invalid_media_type_input_error_witness :
    (handlerUploadVideo (videoEnvWithType 0 sampleVideo "t".toList "b".toList
        (List.replicate 32 0) [(1920, 1080)] (.ok "u".toList) "video/webm".toList)).1 =
      .error 400 "Only accept video/mp4" ∧
    (handlerUploadThumbnail (thumbEnvWithType "text/plain".toList)).1 =
      .error 400 "Only accepts image/png or image/jpeg" :=
  ⟨(invalid_media_type_input_error 0 sampleVideo "t".toList "b".toList
      (List.replicate 32 0) [(1920, 1080)] (.ok "u".toList) "video/webm".toList
      "text/plain".toList (by decide) (by decide) (by decide)).1,
   (invalid_media_type_input_error 0 sampleVideo "t".toList "b".toList
      (List.replicate 32 0) [(1920, 1080)] (.ok "u".toList) "video/webm".toList
      "text/plain".toList (by decide) (by decide) (by decide)).2.2.1⟩

set_option maxRecDepth 8000 in
/-- C2 counterexample: at 1609×900 the exact ratio differs from 16/9 by
exactly 1/100, so the claimed inclusive tolerance demands landscape, but
the binary64 arithmetic the code performs classifies it as other: the
computed difference rounds a few ulps above the binary64 value of 0.01. -/
theorem inclusive_boundary_fails_at_1609x900 :
    |(1609 : ℚ) / 900 - 16 / 9| ≤ 1 / 100 ∧
    mapAspect (checkAspectRatioType64 1609 900 tol64) = "other" := by
  constructor
  · rw [abs_le]
    constructor <;> norm_num
  · decide

set_option maxRecDepth 8000 in
/-- C2 amended: the classifier compares in binary64 floating point with an
inclusive `≤`; the resulting band does not coincide with the exact
±0.01 band at the tolerance edge — at each of the four exact-boundary
families (1609×900 and 1591×900 for 16:9, 229×400 and 221×400 for 9:16)
the exact distance to the target is exactly 1/100 yet the code returns
other — while away from the knife edge the float and exact
characterisations agree (1920×1080 → landscape, 1080×1920 → portrait,
640×480 → other, 1599×900 → landscape); the resulting class is the
directory prefix of the published storage key. -/
theorem classifier_float_semantics
    (uid : Nat) (vd : Video) (tn bucket : Str) (bytes : List Nat) (w h : Int)
    (rest : List (Int × Int)) (pres : Except Unit Str) :
    (|(1609 : ℚ) / 900 - 16 / 9| = 1 / 100 ∧
      checkAspectRatioType64 1609 900 tol64 = "other") ∧
    (|(1591 : ℚ) / 900 - 16 / 9| = 1 / 100 ∧
      checkAspectRatioType64 1591 900 tol64 = "other") ∧
    (|(229 : ℚ) / 400 - 9 / 16| = 1 / 100 ∧
      checkAspectRatioType64 229 400 tol64 = "other") ∧
    (|(221 : ℚ) / 400 - 9 / 16| = 1 / 100 ∧
      checkAspectRatioType64 221 400 tol64 = "other") ∧
    mapAspect (checkAspectRatioType64 1920 1080 tol64) = "landscape" ∧
    mapAspect (checkAspectRatioType64 1080 1920 tol64) = "portrait" ∧
    mapAspect (checkAspectRatioType64 640 480 tol64) = "other" ∧
    mapAspect (checkAspectRatioType64 1599 900 tol64) = "landscape" ∧
    checkAspectRatioType64 1920 1080 tol64 = checkAspectRatioType 1920 1080 (1 / 100) ∧
    Event.putObject bucket ((mapAspect (checkAspectRatioType w h (1 / 100))).toList ++
        '/' :: (base64RawUrlEncode bytes ++ mediaTypeToExtension "video/mp4".toList)) ∈
      (handlerUploadVideo (okVideoEnv uid vd tn bucket bytes ((w, h) :: rest) pres)).2 := by
  have habs : (0 : ℚ) ≤ 1 / 100 := by norm_num
  refine ⟨⟨?_, by decide⟩, ⟨?_, by decide⟩, ⟨?_, by decide⟩, ⟨?_, by decide⟩,
    by decide, by decide, by decide, by decide, ?_, ?_⟩
  · rw [abs_eq habs]
    left
    norm_num
  · rw [abs_eq habs]
    right
    norm_num
  · rw [abs_eq habs]
    left
    norm_num
  · rw [abs_eq habs]
    right
    norm_num
  · rw [show checkAspectRatioType 1920 1080 (1 / 100) = "16:9" from by
      unfold checkAspectRatioType
      norm_num [abs_le]]
    decide
  · rw [success_trace]
    simp

/-- C3: when the probe's JSON parses with zero streams the source indexes
`Streams[0]` out of range and panics rather than returning a
malformed-input error; when streams are present only the first stream's
width and height are used. -/
theorem probe_zero_streams_panics
    (w h : Int) (rest : List (Int × Int)) (uid : Nat) (vd : Video) (tn bucket : Str)
    (bytes : List Nat) (pres : Except Unit Str) :
    getVideoAspectRatio (.ok []) = .panic ∧
    getVideoAspectRatio (.ok ((w, h) :: rest)) = .ok (checkAspectRatioType w h (1 / 100)) ∧
    (handlerUploadVideo (okVideoEnv uid vd tn bucket bytes [] pres)).1 =
      .panicked "runtime error: index out of range" :=
  ⟨rfl, rfl, rfl⟩

/-- C7: splitting the committed `<bucket>,<key>` string on the delimiter
recovers exactly the original pair when neither part contains a comma, and
a persisted string whose comma count is wrong is returned unchanged. -/
theorem reference_encoding_round_trip
    (b k s : Str) (v v2 : Video) (pres : Except Unit Str) (url : Str)
    (hb : ',' ∉ b) (hk : ',' ∉ k) (hs : (splitOnChar ',' s).length ≠ 2) :
    splitOnChar ',' (encodeRef b k) = [b, k] ∧
    dbVideoToSignedVideo (.ok url) { v with videoURL := some (encodeRef b k) } =
      (.ok { v with videoURL := some url }, [.presign b k (5 * 60)]) ∧
    dbVideoToSignedVideo pres { v2 with videoURL := some s } =
      (.ok { v2 with videoURL := some s }, []) := by
  refine ⟨decodeRoundTrip b k hb hk, dbSign_success b k v url hb hk, ?_⟩
  unfold dbVideoToSignedVideo
  simp [hs]

/-- C7 witness: round trip of a concrete bucket/key pair and a legacy
string with two commas. -/
theorem reference_encoding_round_trip_witness :
    splitOnChar ',' (encodeRef "bkt".toList "key.mp4".toList) =
      ["bkt".toList, "key.mp4".toList] :=
  (reference_encoding_round_trip "bkt".toList "key.mp4".toList "a,b,c".toList
    sampleVideo sampleVideo (.ok "u".toList) "u".toList
    (by decide) (by decide) (by decide)).1

/-- The response of a successful video run is assembled from the resolver's
outcome on the committed record. -/
lemma success_response (uid : Nat) (vd : Video) (tn bucket : Str) (bytes : List Nat)
    (w h : Int) (rest : List (Int × Int)) (pres : Except Unit Str) :
    (handlerUploadVideo (okVideoEnv uid vd tn bucket bytes ((w, h) :: rest) pres)).1 =
      (match (dbVideoToSignedVideo pres { vd with videoURL := some (encodeRef bucket
          ((mapAspect (checkAspectRatioType w h (1 / 100))).toList ++
            '/' :: (base64RawUrlEncode bytes ++ mediaTypeToExtension "video/mp4".toList))) }).1 with
       | .panicked => .panicked "invalid memory address or nil pointer dereference"
       | .err => .error 500 "Couldn't generate presigned video url"
       | .ok v => .ok v) := rfl

/-- C8: every successful video upload response carries a URL freshly
presigned for the committed bucket and key with a validity of exactly
5 minutes (300 seconds). -/
theorem committed_reference_presigned_five_minutes
    (uid : Nat) (vd : Video) (tn bucket : Str) (bytes : List Nat) (w h : Int)
    (rest : List (Int × Int)) (url : Str)
    (hb : ',' ∉ bucket) (hbytes : ∀ x ∈ bytes, x < 256) :
    (handlerUploadVideo (okVideoEnv uid vd tn bucket bytes ((w, h) :: rest) (.ok url))).1 =
      .ok { vd with videoURL := some url } ∧
    Event.presign bucket ((mapAspect (checkAspectRatioType w h (1 / 100))).toList ++
        '/' :: (base64RawUrlEncode bytes ++ mediaTypeToExtension "video/mp4".toList)) (5 * 60) ∈
      (handlerUploadVideo (okVideoEnv uid vd tn bucket bytes ((w, h) :: rest) (.ok url))).2 := by
  have hkey : ',' ∉ (mapAspect (checkAspectRatioType w h (1 / 100))).toList ++
      '/' :: (base64RawUrlEncode bytes ++ mediaTypeToExtension "video/mp4".toList) := by
    intro hm
    rcases List.mem_append.mp hm with hA | hm2
    · exact comma_not_mem_aspect w h hA
    · rcases List.mem_cons.mp hm2 with hsl | hm3
      · exact absurd hsl (by decide)
      · rcases List.mem_append.mp hm3 with hB | hC
        · exact absurd (base64RawUrlEncode_mem bytes hbytes ',' hB) (by decide)
        · exact absurd hC (by decide)
  have hsign := dbSign_success bucket _ vd url hb hkey
  constructor
  · rw [success_response uid vd tn bucket bytes w h rest (.ok url), hsign]
  · rw [success_trace uid vd tn bucket bytes w h rest (.ok url), hsign]
    simp

/-- C8 witness at a concrete comma-free bucket and byte string. -/
theorem committed_reference_presigned_five_minutes_witness :
    (handlerUploadVideo (okVideoEnv 0 sampleVideo "t".toList "b".toList
        (List.replicate 32 0) [(1920, 1080)] (.ok "u".toList))).1 =
      .ok { sampleVideo with videoURL := some "u".toList } :=
  (committed_reference_presigned_five_minutes 0 sampleVideo "t".toList "b".toList
    (List.replicate 32 0) 1920 1080 [] "u".toList (by decide) (by decide)).1

/-- C9: the generated asset key is the padding-free URL-safe base64
encoding of the 32 random bytes (43 characters over the URL-safe alphabet)
followed by a dot and the content type's subtype; a content type that does
not split into exactly two parts yields `.bin`; randomness exhaustion
panics. -/
theorem asset_key_generation_format
    (t sub mt : Str) (bytes : List Nat)
    (ht : '/' ∉ t) (hsub : '/' ∉ sub)
    (hmt : (splitOnChar '/' mt).length ≠ 2)
    (hlen : bytes.length = 32) (hb : ∀ x ∈ bytes, x < 256) :
    mediaTypeToExtension (t ++ '/' :: sub) = '.' :: sub ∧
    mediaTypeToExtension mt = ".bin".toList ∧
    (∀ mta : Str, getAssetPath none mta = .panic) ∧
    getAssetPath (some bytes) (t ++ '/' :: sub) =
      .ok (base64RawUrlEncode bytes ++ '.' :: sub) ∧
    (base64RawUrlEncode bytes).length = 43 ∧
    (∀ ch ∈ base64RawUrlEncode bytes, ch ∈ b64urlAlphabet) := by
  have hext : mediaTypeToExtension (t ++ '/' :: sub) = '.' :: sub := by
    unfold mediaTypeToExtension
    rw [splitOnChar_sep '/' t sub ht, splitOnChar_no_sep '/' sub hsub]
    rfl
  refine ⟨hext, ?_, fun mta => rfl, ?_, ?_, base64RawUrlEncode_mem bytes hb⟩
  · unfold mediaTypeToExtension
    simp [hmt]
  · unfold getAssetPath
    rw [hext]
  · rw [base64RawUrlEncode_length, hlen]

/-- C9 witness: `image/png` and a 32-byte randomness outcome. -/
theorem asset_key_generation_format_witness :
    mediaTypeToExtension ("image".toList ++ '/' :: "png".toList) = '.' :: "png".toList ∧
    (base64RawUrlEncode (List.replicate 32 0)).length = 43 :=
  ⟨(asset_key_generation_format "image".toList "png".toList "noslash".toList
      (List.replicate 32 0) (by decide) (by decide) (by decide) (by decide) (by decide)).1,
   (asset_key_generation_format "image".toList "png".toList "noslash".toList
      (List.replicate 32 0) (by decide) (by decide) (by decide) (by decide)
      (by decide)).2.2.2.2.1⟩
